import Mathlib

/-!
Shallow embedding of the task-machine scheduler (`src/src/index.js`, the `Task` and
`TaskMachine` classes).  The caller's mutable model object becomes an explicit `Model`
value threaded through every operation; `async` control flow is split at its await
points into a synchronous launch phase and a resolution continuation, with the
interleaving (completion order, destroy calls, clock readings) supplied by an explicit
schedule; thrown JavaScript errors become `Except` / `Option JsError` results, so that
a function returning a plain `Model` embeds code that cannot reject.
-/

namespace TM

/-- Epoch-millisecond timestamps as produced by Date.now(). -/
abbrev Time := Nat

/-- Far-future sentinel meaning no execution has occurred (src line 261). -/
def NEVER_EXECUTED : Time := 8640000000000000

/-- A thrown JavaScript Error value, identified by its message. -/
structure JsError where
  message : String
deriving DecidableEq, Repr

/-- Value stored into a task's model error field: the raw error object when
the errorAsObject option is set, otherwise just the message (src line 408). -/
inductive ErrVal where
  | obj : JsError → ErrVal
  | msg : String → ErrVal
deriving DecidableEq, Repr

/-- Minimal universe of JavaScript values for hook results, enough to carry
the JS truthiness test applied by the engine. -/
inductive JsVal where
  | vNull : JsVal
  | vBool : Bool → JsVal
  | vNum : Int → JsVal
  | vStr : String → JsVal
  | vObj : Nat → JsVal
deriving DecidableEq, Repr

/-- JS truthiness of a value. -/
def JsVal.truthy : JsVal → Bool
  | .vNull => false
  | .vBool b => b
  | .vNum n => n != 0
  | .vStr s => s != ""
  | .vObj _ => true

/-- The four per-task model fields, written under the names produced by
taskPropKeys (src lines 281-288). -/
structure TaskFields where
  error : Option ErrVal := none
  executedAt : Time := 0
  running : Bool := false
  ready : Bool := false
deriving DecidableEq, Repr

/-- The caller's model: the three machine-level fields, one `TaskFields` per task
(position in the list = task index), and arbitrary caller-owned extra state `α`
that hooks may read and write. -/
structure Model (α : Type) where
  machineRunning : Bool := false
  machineStartedAt : Time := 0
  machineStoppedAt : Time := 0
  taskF : List TaskFields := []
  extra : α
deriving DecidableEq, Repr

variable {α : Type}

/-- Read task i's fields (reading an absent key yields the defaults). -/
def Model.getTF (m : Model α) (i : Nat) : TaskFields :=
  m.taskF.getD i {}

/-- Overwrite task i's fields by applying `f` to the current value. -/
def Model.setTF (m : Model α) (i : Nat) (f : TaskFields → TaskFields) : Model α :=
  { m with taskF := m.taskF.set i (f (m.taskF.getD i {})) }

/-- model[propKeys.error] = e -/
def Model.setErr (m : Model α) (i : Nat) (e : Option ErrVal) : Model α :=
  m.setTF i (fun t => { t with error := e })

/-- model[propKeys.running] = b (the Task isRunning setter body, src lines 318-324). -/
def Model.setRun (m : Model α) (i : Nat) (b : Bool) : Model α :=
  m.setTF i (fun t => { t with running := b })

/-- model[propKeys.ready] = b -/
def Model.setReady (m : Model α) (i : Nat) (b : Bool) : Model α :=
  m.setTF i (fun t => { t with ready := b })

/-- model[propKeys.executedAt] = t -/
def Model.setExecAt (m : Model α) (i : Nat) (t : Time) : Model α :=
  m.setTF i (fun f => { f with executedAt := t })

/-- The caller-supplied hook set of one task (src line 38 of the spec surface;
`tasks[key]` in the constructor).  Hooks are modelled as pure functions returning
the mutated model; where a hook's throwing is claim-relevant the function also
returns the thrown error.  The execute hook is asynchronous: only its presence is
recorded here, and its eventual outcome (resolution value or rejection error) is
supplied by the environment at the continuation, together with whatever model
state then holds. -/
structure Hooks (α : Type) where
  guard : Option (Model α → Bool) := none
  beforeExecute : Option (Model α → Model α × Option JsError) := none
  executePresent : Bool := true
  afterExecute : Option (Model α → JsVal → Model α × Except JsError JsVal) := none
  assign : Option (Model α → JsVal → Model α × Option JsError) := none
  clear : Option (Model α → Model α) := none

/-- Error value stored per the errorAsObject option (src line 408). -/
def errStore (errorAsObject : Bool) (e : JsError) : ErrVal :=
  if errorAsObject then .obj e else .msg e.message

/-- The catch block of Task.start (src lines 402-411), entered with thrown error `e`:
swallow silently if destroyed, else store the error and clear the running flag. -/
def taskCatch (cfg : Bool) (i : Nat) (destroyed : Bool) (e : JsError) (m : Model α) :
    Model α :=
  if destroyed then m
  else ((m.setErr i (some (errStore cfg e))).setRun i false)

/-- Task.isRunnable (src lines 326-333): not already running, and the guard hook
(if any) applied to the model is truthy. -/
def taskIsRunnable (h : Hooks α) (i : Nat) (m : Model α) : Bool :=
  if (m.getTF i).running then false
  else
    match h.guard with
    | some g => g m
    | none => true

/-- Synchronous phase of Task.start (src lines 366-385): everything up to the await
of the execute hook, run at launch time when the task is not destroyed.  Returns the
model together with the preemption token if the await was reached; `none` means the
invocation already completed synchronously through the catch block (beforeExecute
threw, or the execute hook is missing). -/
def taskStartSync (cfg : Bool) (h : Hooks α) (i : Nat) (now : Time) (m : Model α) :
    Model α × Option Time :=
  let m1 := ((m.setRun i true).setErr i none).setReady i false
  match (match h.beforeExecute with
         | some f => f m1
         | none => (m1, none)) with
  | (m2, some e) => (taskCatch cfg i false e m2, none)
  | (m2, none) =>
    if h.executePresent then (m2.setExecAt i now, some now)
    else (taskCatch cfg i false (JsError.mk "Execute not a function") m2, none)

/-- Tail of the success path of Task.start (src lines 392-401): the truthiness check
on the (post-afterExecute) result, the assign hook, and the ready/running writes. -/
def taskFinish (cfg : Bool) (h : Hooks α) (i : Nat) (destroyed : Bool) (res : JsVal)
    (m : Model α) : Model α :=
  if res.truthy = false then
    taskCatch cfg i destroyed (JsError.mk "Result not truthy") m
  else
    match h.assign with
    | some g =>
      match g m res with
      | (m3, some e) => taskCatch cfg i destroyed e m3
      | (m3, none) => (m3.setReady i true).setRun i false
    | none => (m.setReady i true).setRun i false

/-- Continuation of Task.start after the awaited execute hook settles
(src lines 385-411).  `destroyed` is the task's destroyed flag at resolution time,
`token` the preemption token recorded by the synchronous phase, `outcome` the
settlement of the execute promise, and `m` the model state at resolution time
(which intervening code may have changed arbitrarily).  A rejection goes straight
to the catch block; a resolution first runs the destroyed/preemption guard of
src line 388. -/
def taskStartResolve (cfg : Bool) (h : Hooks α) (i : Nat) (destroyed : Bool)
    (token : Time) (outcome : Except JsError JsVal) (m : Model α) : Model α :=
  match outcome with
  | .error e => taskCatch cfg i destroyed e m
  | .ok res =>
    if destroyed ∨ (m.getTF i).executedAt ≠ token then m
    else
      match h.afterExecute with
      | some f =>
        match f m res with
        | (m2, .error e) => taskCatch cfg i destroyed e m2
        | (m2, .ok res2) => taskFinish cfg h i destroyed res2 m2
      | none => taskFinish cfg h i destroyed res m

/-- Task.clear (src lines 338-351): reset running, error, ready, executedAt in that
order, then invoke the optional clear hook on the resulting model. -/
def taskClear (h : Hooks α) (i : Nat) (m : Model α) : Model α :=
  let m1 := (((m.setRun i false).setErr i none).setReady i false).setExecAt i
    NEVER_EXECUTED
  match h.clear with
  | some f => f m1
  | none => m1

/-- C1: if the preemption token recorded by Task.start no longer matches the model's
executedAt field when the awaited execute hook resolves, the resolution returns the
model unchanged — no field of any task is mutated, and since the equation holds for
every hook set `h`, neither the afterExecute nor the assign hook can have been
invoked (the result does not depend on them). -/
theorem taskStartResolve_preempted (cfg : Bool) (h : Hooks α) (i : Nat) (d : Bool)
    (token : Time) (v : JsVal) (m : Model α)
    (hp : (m.getTF i).executedAt ≠ token) :
    taskStartResolve cfg h i d token (.ok v) m = m := by
  unfold taskStartResolve
  simp [hp]

/-- Setting a task's fields never changes the number of tasks in the model. -/
theorem Model.length_setTF (m : Model α) (i : Nat) (f : TaskFields → TaskFields) :
    (m.setTF i f).taskF.length = m.taskF.length := by
  simp [Model.setTF]

/-- Reading back the fields of a task just written (in range) yields the update. -/
theorem Model.getTF_setTF_self (m : Model α) (i : Nat) (f : TaskFields → TaskFields)
    (hi : i < m.taskF.length) : (m.setTF i f).getTF i = f (m.getTF i) := by
  simp [Model.setTF, Model.getTF, List.getElem?_set_self hi]

/-- Fields of task i after the non-destroyed catch block: the error is stored per
the errorAsObject option and running is cleared; other fields are untouched. -/
theorem taskCatch_getTF (cfg : Bool) (i : Nat) (e : JsError) (m : Model α)
    (hi : i < m.taskF.length) :
    (taskCatch cfg i false e m).getTF i =
      { m.getTF i with error := some (errStore cfg e), running := false } := by
  have h1 : i < (m.setErr i (some (errStore cfg e))).taskF.length := by
    simpa [Model.setErr, Model.length_setTF] using hi
  show ((m.setErr i (some (errStore cfg e))).setRun i false).getTF i = _
  rw [Model.setRun, Model.getTF_setTF_self _ _ _ h1, Model.setErr,
    Model.getTF_setTF_self _ _ _ hi]

/-- C4: every failure mode of a non-destroyed Task.start invocation is contained,
storing the error (raw object when errorAsObject is set, otherwise its message)
and clearing running: (a) a throwing beforeExecute hook and (b) a missing execute
hook complete the invocation synchronously through the catch block, before the
await is ever reached; at resolution, (c) a rejecting execute hook, (d) a throwing
afterExecute hook, (e) a falsy post-afterExecute result (the raw result when no
afterExecute hook is supplied), and (f) a throwing assign hook all end in the
catch block.  The beforeExecute and afterExecute stages are quantified by their
outcome, so no hook shape is excluded from any mode.  `taskStartSync` and
`taskStartResolve` are total functions into `Model`, which embeds the fact that
the promise returned by Task.start settles by resolution, never by rejection. -/
theorem taskStart_failure_stored (cfg : Bool) (h : Hooks α) (i : Nat) (tok now : Time)
    (e : JsError) (v v2 : JsVal) (m m2 m3 : Model α)
    (hi : i < m.taskF.length) :
    (∀ bOut, (match h.beforeExecute with
        | some fb => fb (((m.setRun i true).setErr i none).setReady i false)
        | none => (((m.setRun i true).setErr i none).setReady i false, none)) =
          (m2, bOut) →
      i < m2.taskF.length →
      ((bOut = some e →
        (taskStartSync cfg h i now m).2 = none ∧
        ((taskStartSync cfg h i now m).1.getTF i).error = some (errStore cfg e) ∧
        ((taskStartSync cfg h i now m).1.getTF i).running = false) ∧
       (bOut = none → h.executePresent = false →
        (taskStartSync cfg h i now m).2 = none ∧
        ((taskStartSync cfg h i now m).1.getTF i).error =
          some (errStore cfg (JsError.mk "Execute not a function")) ∧
        ((taskStartSync cfg h i now m).1.getTF i).running = false))) ∧
    (((taskStartResolve cfg h i false tok (.error e) m).getTF i).error =
        some (errStore cfg e) ∧
     ((taskStartResolve cfg h i false tok (.error e) m).getTF i).running = false) ∧
    ((m.getTF i).executedAt = tok →
      ∀ aOut, (match h.afterExecute with
        | some fa => fa m v
        | none => (m, Except.ok v)) = (m2, aOut) →
      i < m2.taskF.length →
      ((aOut = Except.error e →
        ((taskStartResolve cfg h i false tok (.ok v) m).getTF i).error =
          some (errStore cfg e) ∧
        ((taskStartResolve cfg h i false tok (.ok v) m).getTF i).running = false) ∧
       (aOut = Except.ok v2 → v2.truthy = false →
        ((taskStartResolve cfg h i false tok (.ok v) m).getTF i).error =
          some (errStore cfg (JsError.mk "Result not truthy")) ∧
        ((taskStartResolve cfg h i false tok (.ok v) m).getTF i).running = false) ∧
       (aOut = Except.ok v2 → v2.truthy = true →
        ∀ ga, h.assign = some ga → ga m2 v2 = (m3, some e) → i < m3.taskF.length →
        ((taskStartResolve cfg h i false tok (.ok v) m).getTF i).error =
          some (errStore cfg e) ∧
        ((taskStartResolve cfg h i false tok (.ok v) m).getTF i).running = false))) := by
  refine ⟨fun bOut hB hm2 => ⟨fun hbe => ?_, fun hbn hexec => ?_⟩, ?_,
    fun hpre aOut hA hm2 =>
      ⟨fun hae => ?_, fun haok hv2 => ?_, fun haok hv2t ga hga hgae hm3 => ?_⟩⟩
  · subst hbe
    have key : taskStartSync cfg h i now m = (taskCatch cfg i false e m2, none) := by
      simp [taskStartSync, hB]
    rw [key]
    refine ⟨rfl, ?_, ?_⟩
    · show ((taskCatch cfg i false e m2).getTF i).error = some (errStore cfg e)
      rw [taskCatch_getTF cfg i e m2 hm2]
    · show ((taskCatch cfg i false e m2).getTF i).running = false
      rw [taskCatch_getTF cfg i e m2 hm2]
  · subst hbn
    have key : taskStartSync cfg h i now m =
        (taskCatch cfg i false (JsError.mk "Execute not a function") m2, none) := by
      simp [taskStartSync, hB, hexec]
    rw [key]
    refine ⟨rfl, ?_, ?_⟩
    · show ((taskCatch cfg i false (JsError.mk "Execute not a function") m2).getTF i).error =
        some (errStore cfg (JsError.mk "Execute not a function"))
      rw [taskCatch_getTF cfg i (JsError.mk "Execute not a function") m2 hm2]
    · show ((taskCatch cfg i false (JsError.mk "Execute not a function") m2).getTF i).running =
        false
      rw [taskCatch_getTF cfg i (JsError.mk "Execute not a function") m2 hm2]
  · show ((taskCatch cfg i false e m).getTF i).error = _ ∧
      ((taskCatch cfg i false e m).getTF i).running = false
    rw [taskCatch_getTF cfg i e m hi]
    exact ⟨rfl, rfl⟩
  · subst hae
    cases hc : h.afterExecute with
    | none =>
      rw [hc] at hA
      injection hA with h1 h2
      exact absurd h2 (by simp)
    | some fa =>
      rw [hc] at hA
      have hA2 : fa m v = (m2, Except.error e) := hA
      have key : taskStartResolve cfg h i false tok (.ok v) m =
          taskCatch cfg i false e m2 := by
        simp [taskStartResolve, hpre, hc, hA2]
      rw [key, taskCatch_getTF cfg i e m2 hm2]
      exact ⟨rfl, rfl⟩
  · subst haok
    cases hc : h.afterExecute with
    | none =>
      rw [hc] at hA
      injection hA with h1 h2
      injection h2 with h3
      subst h1
      subst h3
      have key : taskStartResolve cfg h i false tok (.ok v) m =
          taskCatch cfg i false (JsError.mk "Result not truthy") m := by
        simp [taskStartResolve, hpre, hc, taskFinish, hv2]
      rw [key, taskCatch_getTF cfg i (JsError.mk "Result not truthy") m hm2]
      exact ⟨rfl, rfl⟩
    | some fa =>
      rw [hc] at hA
      have hA2 : fa m v = (m2, Except.ok v2) := hA
      have key : taskStartResolve cfg h i false tok (.ok v) m =
          taskCatch cfg i false (JsError.mk "Result not truthy") m2 := by
        simp [taskStartResolve, hpre, hc, hA2, taskFinish, hv2]
      rw [key, taskCatch_getTF cfg i (JsError.mk "Result not truthy") m2 hm2]
      exact ⟨rfl, rfl⟩
  · subst haok
    cases hc : h.afterExecute with
    | none =>
      rw [hc] at hA
      injection hA with h1 h2
      injection h2 with h3
      subst h1
      subst h3
      have key : taskStartResolve cfg h i false tok (.ok v) m =
          taskCatch cfg i false e m3 := by
        simp [taskStartResolve, hpre, hc, taskFinish, hv2t, hga, hgae]
      rw [key, taskCatch_getTF cfg i e m3 hm3]
      exact ⟨rfl, rfl⟩
    | some fa =>
      rw [hc] at hA
      have hA2 : fa m v = (m2, Except.ok v2) := hA
      have key : taskStartResolve cfg h i false tok (.ok v) m =
          taskCatch cfg i false e m3 := by
        simp [taskStartResolve, hpre, hc, hA2, taskFinish, hv2t, hga, hgae]
      rw [key, taskCatch_getTF cfg i e m3 hm3]
      exact ⟨rfl, rfl⟩

/-- Sample hooks for the C4 witness: execute hook missing. -/
def c4Hooks : Hooks Nat := { executePresent := false }

/-- Sample one-task model with default fields. -/
def c4Model : Model Nat := { taskF := [{}], extra := 0 }

/-- Sample hooks for the C4 witness, resolution side: an afterExecute hook that
transforms every result into the falsy null. -/
def c4bHooks : Hooks Nat :=
  { afterExecute := some (fun m _ => (m, Except.ok JsVal.vNull)) }

/-- Witness for C4: a concrete task with no execute hook completes synchronously
with the error stored and running cleared, and a concrete task whose afterExecute
hook transforms the result into a falsy value ends with the Result-not-truthy
error stored and running cleared. -/
theorem taskStart_failure_stored_witness :
    ((taskStartSync false c4Hooks 0 11 c4Model).2 = none ∧
     ((taskStartSync false c4Hooks 0 11 c4Model).1.getTF 0).error =
       some (errStore false (JsError.mk "Execute not a function")) ∧
     ((taskStartSync false c4Hooks 0 11 c4Model).1.getTF 0).running = false) ∧
    (((taskStartResolve false c4bHooks 0 false 0 (.ok (JsVal.vObj 1)) c4Model).getTF 0).error =
       some (errStore false (JsError.mk "Result not truthy")) ∧
     ((taskStartResolve false c4bHooks 0 false 0 (.ok (JsVal.vObj 1)) c4Model).getTF 0).running =
       false) :=
  ⟨((taskStart_failure_stored false c4Hooks 0 0 11 (JsError.mk "e") JsVal.vNull JsVal.vNull
      c4Model (((c4Model.setRun 0 true).setErr 0 none).setReady 0 false) c4Model
      (by decide)).1 none rfl (by decide)).2 rfl rfl,
   ((taskStart_failure_stored false c4bHooks 0 0 11 (JsError.mk "e") (JsVal.vObj 1)
      JsVal.vNull c4Model c4Model c4Model (by decide)).2.2 rfl (Except.ok JsVal.vNull)
      rfl (by decide)).2.1 rfl rfl⟩

/-- The reset values Task.clear writes into the four task fields. -/
def resetTF : TaskFields :=
  { error := none, executedAt := NEVER_EXECUTED, running := false, ready := false }

/-- With no clear hook, Task.clear collapses to a single overwrite of the four
task fields with their reset values. -/
theorem taskClear_none_eq (h : Hooks α) (i : Nat) (m : Model α)
    (hi : i < m.taskF.length) (hc : h.clear = none) :
    taskClear h i m = { m with taskF := m.taskF.set i resetTF } := by
  simp only [taskClear, hc, Model.setRun, Model.setErr, Model.setReady,
    Model.setExecAt, Model.setTF]
  simp [resetTF, List.set_set, List.getElem?_set_self, hi]

/-- C7 (amended): Task.clear resets running, error, ready and executedAt, leaves
the caller's extra state alone when no clear hook is supplied, and with a clear
hook it invokes that hook on the reset model.  Idempotence holds when no clear
hook is supplied; a non-idempotent clear hook defeats it (see the counterexample). -/
theorem taskClear_resets (h : Hooks α) (i : Nat) (m : Model α)
    (hi : i < m.taskF.length) :
    (h.clear = none →
      ((taskClear h i m).getTF i).running = false ∧
      ((taskClear h i m).getTF i).error = none ∧
      ((taskClear h i m).getTF i).ready = false ∧
      ((taskClear h i m).getTF i).executedAt = NEVER_EXECUTED ∧
      (taskClear h i m).extra = m.extra ∧
      taskClear h i (taskClear h i m) = taskClear h i m) ∧
    (∀ f, h.clear = some f →
      taskClear h i m = f (taskClear { h with clear := none } i m)) := by
  constructor
  · intro hc
    rw [taskClear_none_eq h i m hi hc]
    refine ⟨?_, ?_, ?_, ?_, rfl, ?_⟩
    · simp [Model.getTF, List.getElem?_set_self hi, resetTF]
    · simp [Model.getTF, List.getElem?_set_self hi, resetTF]
    · simp [Model.getTF, List.getElem?_set_self hi, resetTF]
    · simp [Model.getTF, List.getElem?_set_self hi, resetTF]
    · rw [taskClear_none_eq h i _ (by simpa using hi) hc]
      simp [List.set_set]
  · intro f hc
    simp [taskClear, hc]

/-- Hooks whose clear hook bumps a counter in the caller's extra state: a
non-idempotent reset. -/
def c7Hooks : Hooks Nat := { clear := some (fun m => { m with extra := m.extra + 1 }) }

/-- Counterexample for C7 as stated: with the counter-bumping clear hook,
applying clear twice does not leave the same model state as applying it once. -/
theorem taskClear_not_idempotent_cex :
    taskClear c7Hooks 0 (taskClear c7Hooks 0 c4Model) ≠ taskClear c7Hooks 0 c4Model := by
  decide

/-- Hooks with no clear hook, for the C7 witness. -/
def c7NoHooks : Hooks Nat := { clear := none }

/-- Witness for C7: on a concrete one-task model with no clear hook, clear resets
the four fields, preserves the extra state and is idempotent. -/
theorem taskClear_resets_witness :
    ((taskClear c7NoHooks 0 c4Model).getTF 0).running = false ∧
    ((taskClear c7NoHooks 0 c4Model).getTF 0).error = none ∧
    ((taskClear c7NoHooks 0 c4Model).getTF 0).ready = false ∧
    ((taskClear c7NoHooks 0 c4Model).getTF 0).executedAt = NEVER_EXECUTED ∧
    (taskClear c7NoHooks 0 c4Model).extra = c4Model.extra ∧
    taskClear c7NoHooks 0 (taskClear c7NoHooks 0 c4Model) = taskClear c7NoHooks 0 c4Model :=
  (taskClear_resets c7NoHooks 0 c4Model (by decide)).1 rfl

/-- Concrete sample hooks: always-true guard, execute present, no other hooks. -/
def sHooks : Hooks Nat := { guard := some (fun _ => true) }

/-- Concrete sample model with one task whose executedAt is 7. -/
def sModel : Model Nat :=
  { machineRunning := true
    taskF := [{ executedAt := 7, running := true }]
    extra := 0 }

/-- Witness for C1: at a concrete model whose executedAt (7) differs from the
token (5), the resolution leaves the model untouched. -/
theorem taskStartResolve_preempted_witness :
    (sModel.getTF 0).executedAt ≠ 5 ∧
      taskStartResolve false sHooks 0 false 5 (.ok (.vObj 0)) sModel = sModel :=
  ⟨by decide, taskStartResolve_preempted false sHooks 0 false 5 (.vObj 0) sModel
    (by decide)⟩

/-- Per-machine options after the constructor merged them over the defaults
(src lines 419-426). -/
structure Opts where
  errorAsObject : Bool := false
  interval : Int := 500
  maxExecutions : Nat := 200
  waitForCompletion : Bool := false

/-- The TaskMachine object's own state.  The references it holds to the caller's
model, to its options and to its Task array are modelled as presence flags /
options, because destroy severs them (src lines 470-474) and later accesses
through a severed reference throw. -/
structure Machine (α : Type) where
  destroyed : Bool := false
  modelRef : Bool := true
  tasksRef : Option (List (Hooks α)) := some []
  optionsRef : Bool := true
  opts : Opts := {}

/-- TaskMachine constructor (src lines 416-443): builds one Task per supplied hook
set and writes exactly the three machine-level model fields. -/
def machineNew (m : Model α) (taskDefs : List (Hooks α)) (o : Opts) :
    Machine α × Model α :=
  ({ destroyed := false
     modelRef := true
     tasksRef := some taskDefs
     optionsRef := true
     opts := o },
   { m with
     machineRunning := false
     machineStartedAt := NEVER_EXECUTED
     machineStoppedAt := NEVER_EXECUTED })

/-- TaskMachine.destroy (src lines 465-475): sets the destroyed flag, then iterates
this.tasks — which throws a TypeError when tasks is already null from a previous
destroy — and finally severs the tasks/model/options references.  Returns the
machine state after the call together with the error it threw, if any. -/
def machineDestroy (mc : Machine α) : Machine α × Option JsError :=
  let mc1 : Machine α := { mc with destroyed := true }
  match mc1.tasksRef with
  | none => (mc1, some (JsError.mk "Cannot read properties of null"))
  | some _ =>
    ({ mc1 with tasksRef := none, modelRef := false, optionsRef := false }, none)

/-- The TaskMachine isRunning setter (src lines 479-488): writes the running flag
and stamps startedAt or stoppedAt, but only while the model reference is intact. -/
def machineSetRunning (mc : Machine α) (b : Bool) (now : Time) (m : Model α) :
    Model α :=
  if mc.modelRef then
    if b then { m with machineRunning := b, machineStartedAt := now }
    else { m with machineRunning := b, machineStoppedAt := now }
  else m

/-- TaskMachine.clear (src lines 448-460): filters this.tasks by the predicate and
clears each selected task — throwing a TypeError when tasks is null after destroy. -/
def machineClear (mc : Machine α) (pred : Nat → Bool) (m : Model α) :
    Except JsError (Model α) :=
  match mc.tasksRef with
  | none => .error (JsError.mk "Cannot read properties of null")
  | some ts =>
    .ok ((ts.enum.filter (fun p => pred p.1)).foldl (fun acc p => taskClear p.2 p.1 acc) m)

/-- Outcome of the guard clause of TaskMachine.start (src lines 496-500).  Reading
`this.isRunning` dereferences this.model first, so a destroyed machine makes the
async function reject instead of returning false. -/
inductive StartEntry (α : Type) where
  | rejected : JsError → StartEntry α
  | noop : StartEntry α
  | entered : Model α → StartEntry α

/-- Entry of TaskMachine.start: the isRunning getter (src line 477), the
running/destroyed check, and on entry the isRunning := true write stamping
startedAt (src lines 498-500). -/
def machineStartEntry (mc : Machine α) (now : Time) (m : Model α) : StartEntry α :=
  if mc.modelRef = false then .rejected (JsError.mk "Cannot read properties of null")
  else if m.machineRunning then .noop
  else if mc.destroyed then .noop
  else .entered (machineSetRunning mc true now m)

/-- One in-flight execution: the task index, the hook set its closure captured,
and the preemption token recorded at launch. -/
structure Flight (α : Type) where
  idx : Nat
  hooks : Hooks α
  token : Time

/-- State of one run of the polling loop: the destroyed flag shared by the machine
and its tasks, the machine's model reference, the model itself, the in-flight
counter `count` and lifetime launch counter `total` (src lines 502-503), and the
in-flight executions whose continuations have not yet run. -/
structure LState (α : Type) where
  destroyed : Bool
  modelRef : Bool
  model : Model α
  count : Nat
  total : Nat
  pending : List (Flight α)

/-- External event occurring during a cycle's awaits: the continuation of pending
flight j runs with the given settlement of its execute promise, or the caller
invokes destroy. -/
inductive Ev where
  | complete : Nat → Except JsError JsVal → Ev
  | destroy : Ev

/-- The environment of one run: which events happen during each cycle's awaits,
and what Date.now() returns during each cycle. -/
structure Sched where
  events : Nat → List Ev
  now : Nat → Time

/-- The runnable tasks of one cycle (src line 506): index/hook pairs of the tasks
passing Task.isRunnable against the current model. -/
def cycleRunnable (ts : List (Hooks α)) (m : Model α) : List (Nat × Hooks α) :=
  ts.enum.filter (fun p => taskIsRunnable p.2 p.1 m)

/-- Launch of one runnable task (src lines 524-529): increment count and total and
run the synchronous phase of Task.start.  An invocation that already completed
synchronously settles within the same cycle, so its count increment and the
decrement from its settlement handler cancel before count is next read. -/
def launchOne (cfg : Bool) (now : Time) (s : LState α) (p : Nat × Hooks α) :
    LState α :=
  match taskStartSync cfg p.2 p.1 now s.model with
  | (m, some t) =>
    { s with
      model := m
      count := s.count + 1
      total := s.total + 1
      pending := s.pending ++ [{ idx := p.1, hooks := p.2, token := t }] }
  | (m, none) => { s with model := m, total := s.total + 1 }

/-- Apply one await-phase event: run a pending continuation (src lines 385-411 for
the resolution, line 528 for the count decrement), or a caller's destroy call,
which flips the shared destroyed flag and severs the model reference. -/
def applyEv (cfg : Bool) (s : LState α) : Ev → LState α
  | .complete j out =>
    match s.pending[j]? with
    | none => s
    | some fl =>
      { s with
        model := taskStartResolve cfg fl.hooks fl.idx s.destroyed fl.token out s.model
        pending := s.pending.eraseIdx j
        count := s.count - 1 }
  | .destroy =>
    if s.destroyed then s
    else { s with destroyed := true, modelRef := false }

/-- Result of one iteration of the do/while body: the loop exits resolving `r`, or
continues with the next state. -/
inductive Step (α : Type) where
  | exit : Bool → LState α → Step α
  | next : LState α → Step α

/-- Loop exit (src lines 536-538): the final isRunning := false write — skipped
when the model reference was severed by destroy — and the resolution value true. -/
def lExit (s : LState α) (now : Time) : Step α :=
  .exit true
    (if s.modelRef then
      { s with model :=
        { s.model with machineRunning := false, machineStoppedAt := now } }
    else s)

/-- The do/while destroyed test at the bottom of a cycle (src line 534), applied
to the state after the cycle's launches and await-phase events. -/
def afterBody (sched : Sched) (k : Nat) (s2 : LState α) : Step α :=
  if s2.destroyed then lExit s2 (sched.now k) else .next s2

/-- One iteration of the polling loop body of TaskMachine.start (src lines 505-534):
the quiescence break, the maxExecutions safety valve, the concurrent launch of all
runnable tasks, the events of the awaits that follow, and the do/while destroyed
test. -/
def stepCycle (cfg : Bool) (ts : List (Hooks α)) (maxE : Nat) (sched : Sched)
    (k : Nat) (s : LState α) : Step α :=
  if (cycleRunnable ts s.model).length = 0 ∧ s.count = 0 then lExit s (sched.now k)
  else if s.total > maxE then lExit s (sched.now k)
  else afterBody sched k ((sched.events k).foldl (applyEv cfg)
    ((cycleRunnable ts s.model).foldl (launchOne cfg (sched.now k)) s))

/-- The loop state before cycle k+n, starting from state s before cycle k;
none when the loop has already exited by then. -/
def traceFrom (cfg : Bool) (ts : List (Hooks α)) (maxE : Nat) (sched : Sched) :
    Nat → LState α → Nat → Option (LState α)
  | _, s, 0 => some s
  | k, s, n + 1 =>
    match stepCycle cfg ts maxE sched k s with
    | .next s2 => traceFrom cfg ts maxE sched (k + 1) s2 n
    | .exit _ _ => none

/-- Run the polling loop from cycle k with the given fuel; returns the resolution
value and the final state, or none when the fuel ran out first. -/
def runLoop (cfg : Bool) (ts : List (Hooks α)) (maxE : Nat) (sched : Sched) :
    Nat → Nat → LState α → Option (Bool × LState α)
  | 0, _, _ => none
  | fuel + 1, k, s =>
    match stepCycle cfg ts maxE sched k s with
    | .exit r s2 => some (r, s2)
    | .next s2 => runLoop cfg ts maxE sched fuel (k + 1) s2

/-- The loop state at the top of the first cycle (count and total start at 0,
nothing in flight, src lines 502-503). -/
def initLState (m : Model α) : LState α :=
  { destroyed := false
    modelRef := true
    model := m
    count := 0
    total := 0
    pending := [] }

/-- TaskMachine.start (src lines 493-539): the guard clause, then the polling loop
driven by the schedule.  .error embeds a rejected promise; `none` inside .ok means
the given fuel did not suffice to reach loop exit. -/
def machineStart (mc : Machine α) (sched : Sched) (fuel : Nat) (m : Model α) :
    Except JsError (Option (Bool × LState α)) :=
  match machineStartEntry mc (sched.now 0) m with
  | .rejected e => .error e
  | .noop => .ok (some (false,
      { destroyed := mc.destroyed
        modelRef := mc.modelRef
        model := m
        count := 0
        total := 0
        pending := [] }))
  | .entered m1 =>
    .ok (runLoop mc.opts.errorAsObject (mc.tasksRef.getD []) mc.opts.maxExecutions
      sched fuel 0 (initLState m1))

/-- C9: constructing a TaskMachine writes exactly the three machine-level model
fields — running = false, startedAt = stoppedAt = NEVER_EXECUTED — and leaves
every task-level field and the caller's extra state untouched. -/
theorem machineNew_frame (m : Model α) (ts : List (Hooks α)) (o : Opts) :
    (machineNew m ts o).2.taskF = m.taskF ∧
    (machineNew m ts o).2.extra = m.extra ∧
    (machineNew m ts o).2.machineRunning = false ∧
    (machineNew m ts o).2.machineStartedAt = NEVER_EXECUTED ∧
    (machineNew m ts o).2.machineStoppedAt = NEVER_EXECUTED :=
  ⟨rfl, rfl, rfl, rfl, rfl⟩

/-- C2 (amended): start() on an already-running machine resolves false immediately
and touches nothing; but on a destroyed machine — whose model reference was severed
by destroy — the isRunning getter dereferences null, so start() rejects with a
TypeError instead of resolving false, and clear() likewise throws because it
filters the null tasks reference. -/
theorem machineStart_noop_or_rejects (mc : Machine α) (sched : Sched) (fuel : Nat)
    (m : Model α) :
    (mc.modelRef = true → m.machineRunning = true →
      ∃ st, machineStart mc sched fuel m = .ok (some (false, st)) ∧ st.model = m) ∧
    (mc.modelRef = false →
      machineStart mc sched fuel m =
        .error (JsError.mk "Cannot read properties of null")) ∧
    (∀ pred, mc.tasksRef = none →
      machineClear mc pred m =
        .error (JsError.mk "Cannot read properties of null")) := by
  refine ⟨fun h1 h2 => ?_, fun h1 => ?_, fun pred h1 => ?_⟩
  · refine ⟨{ destroyed := mc.destroyed, modelRef := mc.modelRef, model := m, count := 0, total := 0, pending := [] }, ?_, rfl⟩
    simp [machineStart, machineStartEntry, h1, h2]
  · simp [machineStart, machineStartEntry, h1]
  · simp [machineClear, h1]

/-- Concrete machine obtained by constructing with no tasks and destroying once. -/
def c2Mc : Machine Nat := (machineDestroy (machineNew c4Model [] {}).1).1

/-- Schedule with no events. -/
def sSched : Sched := { events := fun _ => [], now := fun k => k }

/-- Counterexample for C2 as stated: on a concrete destroyed machine, start()
rejects with a TypeError instead of returning false without throwing. -/
theorem machineStart_destroyed_cex :
    machineStart c2Mc sSched 1 c4Model =
      .error (JsError.mk "Cannot read properties of null") := rfl

/-- Concrete machine with no tasks, neither running nor destroyed. -/
def c2McIdle : Machine Nat := (machineNew c4Model [] {}).1

/-- Concrete model whose machine running flag is set. -/
def c2Running : Model Nat := { machineRunning := true, taskF := [], extra := 0 }

/-- Witness for C2: on a concrete machine whose model says running, start()
resolves false and leaves the model exactly as it was. -/
theorem machineStart_noop_witness :
    ∃ st, machineStart c2McIdle sSched 1 c2Running = .ok (some (false, st)) ∧
      st.model = c2Running :=
  (machineStart_noop_or_rejects c2McIdle sSched 1 c2Running).1 rfl rfl

/-- C3 (amended): destroy() is not idempotent — a second call throws a TypeError
because it iterates the nulled tasks reference — though it leaves the machine
state unchanged; and once destroy() has been called no model field is ever written
again: the continuation of any in-flight Task.start returns the model untouched
whatever the settlement, and the loop's final isRunning write is skipped once the
model reference is severed. -/
theorem machineDestroy_spec (mc : Machine α) :
    (∀ ts, mc.tasksRef = some ts →
      (machineDestroy mc).2 = none ∧
      (machineDestroy (machineDestroy mc).1).1 = (machineDestroy mc).1 ∧
      (machineDestroy (machineDestroy mc).1).2 =
        some (JsError.mk "Cannot read properties of null")) ∧
    (∀ cfg (h : Hooks α) i tok out (m : Model α),
      taskStartResolve cfg h i true tok out m = m) ∧
    (∀ (s : LState α) now2, s.modelRef = false → lExit s now2 = Step.exit true s) := by
  refine ⟨fun ts h1 => ?_, fun cfg h i tok out m => ?_, fun s now2 h1 => ?_⟩
  · refine ⟨by simp [machineDestroy, h1], ?_, by simp [machineDestroy, h1]⟩
    simp [machineDestroy, h1]
  · cases out with
    | error e => simp [taskStartResolve, taskCatch]
    | ok v => simp [taskStartResolve]
  · simp [lExit, h1]

/-- Counterexample for C3 as stated: on a concrete machine, the second destroy()
call throws instead of having no effect silently. -/
theorem machineDestroy_not_idempotent_cex :
    (machineDestroy (machineDestroy (machineNew c4Model [] {}).1).1).2 ≠ none := by
  decide

/-- Witness for C3: the concrete idle machine destroys cleanly once, the second
call throws but preserves the machine state, and a concrete in-flight resolution
after destroy leaves the model untouched. -/
theorem machineDestroy_spec_witness :
    ((machineDestroy c2McIdle).2 = none ∧
      (machineDestroy (machineDestroy c2McIdle).1).1 = (machineDestroy c2McIdle).1 ∧
      (machineDestroy (machineDestroy c2McIdle).1).2 =
        some (JsError.mk "Cannot read properties of null")) ∧
    taskStartResolve false c4Hooks 0 true 3 (.ok JsVal.vNull) c4Model = c4Model :=
  ⟨(machineDestroy_spec c2McIdle).1 [] rfl,
    (machineDestroy_spec c2McIdle).2.1 false c4Hooks 0 3 (.ok JsVal.vNull) c4Model⟩

/-- C6: a task is runnable iff its running field is false and the guard hook is
absent or returns a truthy value on the current model; and only tasks passing
exactly that predicate are in a cycle's launch list, so an unrunnable task is
never launched in any polling cycle. -/
theorem isRunnable_iff (h : Hooks α) (i : Nat) (m : Model α) (ts : List (Hooks α))
    (p : Nat × Hooks α) :
    (taskIsRunnable h i m = true ↔
      ((m.getTF i).running = false ∧
        (h.guard = none ∨ ∃ g, h.guard = some g ∧ g m = true))) ∧
    (p ∈ cycleRunnable ts m → taskIsRunnable p.2 p.1 m = true) := by
  constructor
  · unfold taskIsRunnable
    cases hr : (m.getTF i).running <;> cases hg : h.guard <;> simp [hr, hg]
  · intro hp
    exact (List.mem_filter.mp hp).2

/-- Witness for C6: on a concrete one-task model, the always-true-guard task is
runnable by the iff, and membership in the concrete launch list implies
runnability. -/
theorem isRunnable_iff_witness :
    taskIsRunnable sHooks 0 c4Model = true ∧
      ((0, sHooks) ∈ cycleRunnable [sHooks] c4Model →
        taskIsRunnable sHooks 0 c4Model = true) :=
  ⟨(isRunnable_iff sHooks 0 c4Model [sHooks] (0, sHooks)).1.mpr
      ⟨by decide, Or.inr ⟨fun _ => true, rfl, rfl⟩⟩,
    fun hp => (isRunnable_iff sHooks 0 c4Model [sHooks] (0, sHooks)).2 hp⟩

/-- A cycle never launches more tasks than the machine has. -/
theorem cycleRunnable_length_le (ts : List (Hooks α)) (m : Model α) :
    (cycleRunnable ts m).length ≤ ts.length := by
  unfold cycleRunnable
  calc (ts.enum.filter (fun p => taskIsRunnable p.2 p.1 m)).length
      ≤ ts.enum.length := List.length_filter_le _ _
    _ = ts.length := List.enum_length

/-- One launch increments total by exactly one and does not touch the destroyed
flag or the model reference. -/
theorem launchOne_frame (cfg : Bool) (now : Time) (s : LState α) (p : Nat × Hooks α) :
    (launchOne cfg now s p).total = s.total + 1 ∧
    (launchOne cfg now s p).destroyed = s.destroyed ∧
    (launchOne cfg now s p).modelRef = s.modelRef := by
  unfold launchOne
  cases h : taskStartSync cfg p.2 p.1 now s.model with
  | mk m t => cases t <;> simp

/-- The launch phase of a cycle adds one to total per runnable task and preserves
the destroyed flag and model reference. -/
theorem foldl_launchOne_frame (cfg : Bool) (now : Time) :
    ∀ (l : List (Nat × Hooks α)) (s : LState α),
      ((l.foldl (launchOne cfg now) s).total = s.total + l.length ∧
       (l.foldl (launchOne cfg now) s).destroyed = s.destroyed ∧
       (l.foldl (launchOne cfg now) s).modelRef = s.modelRef) := by
  intro l
  induction l with
  | nil => intro s; simp
  | cons p l ih =>
    intro s
    rw [List.foldl_cons]
    obtain ⟨h1, h2, h3⟩ := ih (launchOne cfg now s p)
    obtain ⟨g1, g2, g3⟩ := launchOne_frame cfg now s p
    refine ⟨?_, by rw [h2, g2], by rw [h3, g3]⟩
    rw [h1, g1]; simp; omega

/-- An await-phase event never changes the total launch counter. -/
theorem applyEv_total (cfg : Bool) (s : LState α) (e : Ev) :
    (applyEv cfg s e).total = s.total := by
  cases e with
  | complete j out =>
    unfold applyEv
    cases h : s.pending[j]? <;> simp [h]
  | destroy =>
    unfold applyEv
    by_cases h : s.destroyed <;> simp [h]

/-- The await phase of a cycle never changes the total launch counter. -/
theorem foldl_applyEv_total (cfg : Bool) :
    ∀ (l : List Ev) (s : LState α), (l.foldl (applyEv cfg) s).total = s.total := by
  intro l
  induction l with
  | nil => intro s; simp
  | cons e l ih =>
    intro s
    rw [List.foldl_cons, ih, applyEv_total]

/-- A loop exit preserves everything but the model, resolves true, and keeps the
total counter. -/
theorem lExit_eq (s : LState α) (now : Time) (r : Bool) (s2 : LState α)
    (h : lExit s now = Step.exit r s2) : r = true ∧ s2.total = s.total := by
  unfold lExit at h
  injection h with h1 h2
  subst h1; subst h2
  by_cases hm : s.modelRef <;> simp [hm]

/-- A cycle that continues passed both break checks and added one launch per
runnable task to the total. -/
theorem stepCycle_next_spec (cfg : Bool) (ts : List (Hooks α)) (maxE : Nat)
    (sched : Sched) (k : Nat) (s s2 : LState α)
    (h : stepCycle cfg ts maxE sched k s = Step.next s2) :
    s2.total = s.total + (cycleRunnable ts s.model).length ∧ s.total ≤ maxE := by
  unfold stepCycle at h
  by_cases h1 : (cycleRunnable ts s.model).length = 0 ∧ s.count = 0
  · rw [if_pos h1] at h
    exact absurd h (by unfold lExit; simp)
  · rw [if_neg h1] at h
    by_cases h2 : s.total > maxE
    · rw [if_pos h2] at h
      exact absurd h (by unfold lExit; simp)
    · rw [if_neg h2] at h
      unfold afterBody at h
      by_cases h3 : ((sched.events k).foldl (applyEv cfg)
          ((cycleRunnable ts s.model).foldl (launchOne cfg (sched.now k)) s)).destroyed
      · rw [if_pos h3] at h
        exact absurd h (by unfold lExit; simp)
      · rw [if_neg h3] at h
        injection h with h4
        subst h4
        refine ⟨?_, Nat.le_of_not_lt h2⟩
        rw [foldl_applyEv_total,
          (foldl_launchOne_frame cfg (sched.now k) (cycleRunnable ts s.model) s).1]

/-- Every loop exit resolves true, and its total is either the total at the top of
the cycle or that plus one launch per runnable task (the latter only when the
safety valve had not yet tripped). -/
theorem stepCycle_exit_spec (cfg : Bool) (ts : List (Hooks α)) (maxE : Nat)
    (sched : Sched) (k : Nat) (s : LState α) (r : Bool) (s2 : LState α)
    (h : stepCycle cfg ts maxE sched k s = Step.exit r s2) :
    r = true ∧ (s2.total = s.total ∨
      (s.total ≤ maxE ∧ s2.total = s.total + (cycleRunnable ts s.model).length)) := by
  unfold stepCycle at h
  by_cases h1 : (cycleRunnable ts s.model).length = 0 ∧ s.count = 0
  · rw [if_pos h1] at h
    obtain ⟨hr, ht⟩ := lExit_eq _ _ _ _ h
    exact ⟨hr, Or.inl ht⟩
  · rw [if_neg h1] at h
    by_cases h2 : s.total > maxE
    · rw [if_pos h2] at h
      obtain ⟨hr, ht⟩ := lExit_eq _ _ _ _ h
      exact ⟨hr, Or.inl ht⟩
    · rw [if_neg h2] at h
      unfold afterBody at h
      by_cases h3 : ((sched.events k).foldl (applyEv cfg)
          ((cycleRunnable ts s.model).foldl (launchOne cfg (sched.now k)) s)).destroyed
      · rw [if_pos h3] at h
        obtain ⟨hr, ht⟩ := lExit_eq _ _ _ _ h
        refine ⟨hr, Or.inr ⟨Nat.le_of_not_lt h2, ?_⟩⟩
        rw [ht, foldl_applyEv_total,
          (foldl_launchOne_frame cfg (sched.now k) (cycleRunnable ts s.model) s).1]
      · rw [if_neg h3] at h
        exact absurd h (by simp)

/-- Unfolding one continuing step of the trace. -/
theorem traceFrom_succ_next (cfg : Bool) (ts : List (Hooks α)) (maxE : Nat)
    (sched : Sched) (k : Nat) (s s1 : LState α) (n : Nat)
    (h : stepCycle cfg ts maxE sched k s = Step.next s1) :
    traceFrom cfg ts maxE sched k s (n + 1) =
      traceFrom cfg ts maxE sched (k + 1) s1 n := by
  simp [traceFrom, h]

/-- Once the trace has ended it stays ended. -/
theorem traceFrom_none_succ (cfg : Bool) (ts : List (Hooks α)) (maxE : Nat)
    (sched : Sched) :
    ∀ (n k : Nat) (s : LState α), traceFrom cfg ts maxE sched k s n = none →
      traceFrom cfg ts maxE sched k s (n + 1) = none := by
  intro n
  induction n with
  | zero => intro k s h; simp [traceFrom] at h
  | succ n ih =>
    intro k s h
    cases hst : stepCycle cfg ts maxE sched k s with
    | exit r s2 => simp [traceFrom, hst]
    | next s2 =>
      rw [traceFrom_succ_next cfg ts maxE sched k s s2 n hst] at h
      rw [traceFrom_succ_next cfg ts maxE sched k s s2 (n + 1) hst]
      exact ih (k + 1) s2 h

/-- C10: over any run of the polling loop starting with at most maxExecutions +
(number of tasks) launches on the counter — in particular from the fresh counter 0 —
the cumulative total of launches never exceeds maxExecutions + number of tasks:
the valve check precedes the launches of a cycle and each cycle launches at most
one execution per task, both along the trace and at the final state of runLoop. -/
theorem launches_bounded (cfg : Bool) (ts : List (Hooks α)) (maxE : Nat)
    (sched : Sched) :
    (∀ (n k : Nat) (s s2 : LState α), s.total ≤ maxE + ts.length →
      traceFrom cfg ts maxE sched k s n = some s2 → s2.total ≤ maxE + ts.length) ∧
    (∀ (fuel k : Nat) (s : LState α) (r : Bool) (s2 : LState α),
      s.total ≤ maxE + ts.length →
      runLoop cfg ts maxE sched fuel k s = some (r, s2) →
      s2.total ≤ maxE + ts.length) := by
  constructor
  · intro n
    induction n with
    | zero =>
      intro k s s2 hb h
      cases h
      exact hb
    | succ n ih =>
      intro k s s2 hb h
      cases hst : stepCycle cfg ts maxE sched k s with
      | exit r s3 => simp [traceFrom, hst] at h
      | next s3 =>
        rw [traceFrom_succ_next cfg ts maxE sched k s s3 n hst] at h
        obtain ⟨ht, hle⟩ := stepCycle_next_spec cfg ts maxE sched k s s3 hst
        have := cycleRunnable_length_le ts s.model
        exact ih (k + 1) s3 s2 (by omega) h
  · intro fuel
    induction fuel with
    | zero =>
      intro k s r s2 hb h
      simp [runLoop] at h
    | succ fuel ih =>
      intro k s r s2 hb h
      cases hst : stepCycle cfg ts maxE sched k s with
      | exit r2 s3 =>
        have h2 : r2 = r ∧ s3 = s2 := by
          simp only [runLoop, hst] at h
          exact ⟨by injection h with h3; injection h3, by injection h with h3; injection h3⟩
        obtain ⟨-, rfl⟩ := h2
        obtain ⟨-, hc⟩ := stepCycle_exit_spec cfg ts maxE sched k s r2 s3 hst
        have := cycleRunnable_length_le ts s.model
        cases hc with
        | inl h3 => omega
        | inr h3 => omega
      | next s3 =>
        simp only [runLoop, hst] at h
        obtain ⟨ht, hle⟩ := stepCycle_next_spec cfg ts maxE sched k s s3 hst
        have := cycleRunnable_length_le ts s.model
        exact ih (k + 1) s3 r s2 (by omega) h

/-- Every continuing cycle with at least one runnable task pushes total up by at
least one, so within maxExecutions + 2 cycles from a fresh counter the loop exits,
and it resolves true. -/
theorem runLoop_exits_aux (cfg : Bool) (ts : List (Hooks α)) (maxE : Nat)
    (sched : Sched) :
    ∀ (f k : Nat) (s : LState α),
      (∀ (n : Nat) (s2 : LState α), traceFrom cfg ts maxE sched k s n = some s2 →
        1 ≤ (cycleRunnable ts s2.model).length) →
      maxE + 1 ≤ s.total + f →
      ∃ s2, runLoop cfg ts maxE sched (f + 1) k s = some (true, s2) := by
  intro f
  induction f with
  | zero =>
    intro k s hrun htot
    cases hst : stepCycle cfg ts maxE sched k s with
    | exit r s2 =>
      obtain ⟨rfl, -⟩ := stepCycle_exit_spec cfg ts maxE sched k s r s2 hst
      exact ⟨s2, by simp [runLoop, hst]⟩
    | next s2 =>
      obtain ⟨-, hle⟩ := stepCycle_next_spec cfg ts maxE sched k s s2 hst
      omega
  | succ f ih =>
    intro k s hrun htot
    cases hst : stepCycle cfg ts maxE sched k s with
    | exit r s2 =>
      obtain ⟨rfl, -⟩ := stepCycle_exit_spec cfg ts maxE sched k s r s2 hst
      exact ⟨s2, by simp [runLoop, hst]⟩
    | next s2 =>
      obtain ⟨ht, -⟩ := stepCycle_next_spec cfg ts maxE sched k s s2 hst
      have hge : 1 ≤ (cycleRunnable ts s.model).length := hrun 0 s rfl
      have hrun2 : ∀ (n : Nat) (s3 : LState α),
          traceFrom cfg ts maxE sched (k + 1) s2 n = some s3 →
          1 ≤ (cycleRunnable ts s3.model).length := by
        intro n s3 h
        refine hrun (n + 1) s3 ?_
        rw [traceFrom_succ_next cfg ts maxE sched k s s2 n hst]
        exact h
      obtain ⟨s3, h3⟩ := ih (k + 1) s2 hrun2 (by omega)
      exact ⟨s3, by simp [runLoop, hst]; exact h3⟩

/-- C5: when every state along the run keeps at least one task runnable — as with
an always-true guard and promptly completing executions — the polling loop still
terminates: within maxExecutions + 2 cycles the cumulative total trips the safety
valve (or an earlier exit fires), and the loop resolves true rather than rejecting. -/
theorem maxExecutions_terminates (cfg : Bool) (ts : List (Hooks α)) (maxE : Nat)
    (sched : Sched) (s : LState α) (h0 : s.total = 0)
    (hrun : ∀ (n : Nat) (s2 : LState α),
      traceFrom cfg ts maxE sched 0 s n = some s2 →
      1 ≤ (cycleRunnable ts s2.model).length) :
    ∃ s2, runLoop cfg ts maxE sched (maxE + 2) 0 s = some (true, s2) :=
  runLoop_exits_aux cfg ts maxE sched (maxE + 1) 0 s hrun (by omega)

/-- C8 (amended): the loop exits at quiescence (no runnable task, nothing in
flight) and at the safety valve, in both cases writing running = false and
stamping stoppedAt into the model and resolving true; every exit resolves true;
but on the destruction exit the final isRunning write is skipped because destroy
severed the model reference, so the model keeps the running value it had. -/
theorem loop_exit_spec (cfg : Bool) (ts : List (Hooks α)) (maxE : Nat)
    (sched : Sched) (k : Nat) (s : LState α) :
    ((cycleRunnable ts s.model).length = 0 → s.count = 0 → s.modelRef = true →
      stepCycle cfg ts maxE sched k s = Step.exit true
        { s with model := { s.model with machineRunning := false, machineStoppedAt := sched.now k } }) ∧
    (¬((cycleRunnable ts s.model).length = 0 ∧ s.count = 0) → s.total > maxE →
      s.modelRef = true →
      stepCycle cfg ts maxE sched k s = Step.exit true
        { s with model := { s.model with machineRunning := false, machineStoppedAt := sched.now k } }) ∧
    (∀ (r : Bool) (s2 : LState α),
      stepCycle cfg ts maxE sched k s = Step.exit r s2 → r = true) ∧
    (∀ now2, s.modelRef = false → lExit s now2 = Step.exit true s) := by
  refine ⟨fun h1 h2 h3 => ?_, fun h1 h2 h3 => ?_, fun r s2 h => ?_, fun now2 h1 => ?_⟩
  · unfold stepCycle
    rw [if_pos ⟨h1, h2⟩]
    unfold lExit
    rw [if_pos h3]
  · unfold stepCycle
    rw [if_neg h1, if_pos h2]
    unfold lExit
    rw [if_pos h3]
  · exact (stepCycle_exit_spec cfg ts maxE sched k s r s2 h).1
  · unfold lExit
    rw [if_neg (by simp [h1])]

/-- One-task model as left by a started machine: machine running flag set. -/
def mOne : Model Nat := { machineRunning := true, taskF := [{}], extra := 0 }

/-- Fresh loop state over that model. -/
def c5S0 : LState Nat := initLState mOne

/-- Schedule that completes the pending flight successfully every cycle. -/
def c5Sched : Sched :=
  { events := fun _ => [Ev.complete 0 (Except.ok (JsVal.vObj 0))]
    now := fun k => 100 + k }

/-- Witness for C5: a concrete machine with one always-runnable task (always-true
guard, each execution completing within its cycle) and maxExecutions = 1 exits
within 1 + 2 cycles, resolving true. -/
theorem maxExecutions_terminates_witness :
    ∃ s2, runLoop false [sHooks] 1 c5Sched (1 + 2) 0 c5S0 = some (true, s2) :=
  maxExecutions_terminates false [sHooks] 1 c5Sched c5S0 rfl (by
    intro n s2 h
    rcases n with - | - | - | n
    · have e := Option.some.inj h
      subst e
      decide
    · have e := Option.some.inj h
      subst e
      decide
    · have e := Option.some.inj h
      subst e
      decide
    · have hnone : ∀ j, traceFrom false [sHooks] 1 c5Sched 0 c5S0 (j + 3) = none := by
        intro j
        induction j with
        | zero => rfl
        | succ j ih =>
          exact traceFrom_none_succ false [sHooks] 1 c5Sched (j + 3) 0 c5S0 ih
      rw [hnone n] at h
      exact Option.noConfusion h)

/-- Witness for C10: on the same concrete run, the final state of runLoop keeps
total within maxExecutions + number of tasks. -/
theorem launches_bounded_witness :
    ∃ s2, runLoop false [sHooks] 1 c5Sched 5 0 c5S0 = some (true, s2) ∧
      s2.total ≤ 1 + List.length [sHooks] := by
  refine ⟨_, rfl, ?_⟩
  exact (launches_bounded false [sHooks] 1 c5Sched).2 5 0 c5S0 true _ (by decide) rfl

/-- Schedule in which the caller destroys the machine during the first cycle's
awaits. -/
def c8Sched : Sched := { events := fun _ => [Ev.destroy], now := fun k => 50 + k }

/-- Counterexample for C8 as stated: on a concrete run destroyed mid-cycle, the
loop exits resolving true but the model's machine running field is left true —
the final running = false write is skipped, not performed. -/
theorem loop_destroyed_no_write_cex :
    (runLoop false [sHooks] 5 c8Sched 2 0 c5S0).map
      (fun p => (p.1, p.2.model.machineRunning)) = some (true, true) := rfl

/-- Quiescent loop state: a machine with no tasks. -/
def c8Quiet : LState Nat :=
  initLState { machineRunning := true, taskF := [], extra := 0 }

/-- Witness for C8: a concrete quiescent cycle exits resolving true with
running = false written and stoppedAt stamped. -/
theorem loop_exit_spec_witness :
    stepCycle false ([] : List (Hooks Nat)) 5 sSched 0 c8Quiet = Step.exit true
      { c8Quiet with model := { c8Quiet.model with machineRunning := false, machineStoppedAt := sSched.now 0 } } :=
  (loop_exit_spec false [] 5 sSched 0 c8Quiet).1 rfl rfl rfl

end TM
